import Mathlib

/-!
# Verification of the `bun-websocket-proxy` Proxy Engine

Shallow embedding of the core of the repository:

* the path matcher (`WsProxy.matchRouter` and `findRoute` in
  `src/websocket/websocket.proxy.ts`),
* the middleware pipeline (`WebsocketProxy.processMessage` and
  `forwardMessage`),
* the session lifecycle handlers (close propagation, registry cleanup),
* the upstream-connection attempt (`createUpstreamConnection`), and
* the built-in `auth` middleware.

JS strings become `String`, `Array.prototype.split('/')` becomes
`String.splitOn "/"`, `filter(Boolean)` on string arrays becomes a
filter of nonempty strings, JS objects used as string maps become
functional updates, and the `try`/`catch` around URL parsing becomes
`Option`-typed inputs (a parse failure is `none`).  Middlewares are
arbitrary functions of the message context; they are embedded as
functions returning a description of the single control-flow decision a
`(context, next)` middleware can take per invocation: mutate and throw,
mutate and return without calling `next`, or mutate, call `next` once
and run a continuation afterwards (which may itself mutate, drop or
throw).
-/

namespace WsProxy

/-! ## Path segments

`pathname.split('/').filter(Boolean)` from `matchRouter` and `findRoute`
(`websocket.proxy.ts`, lines 190-192 and 227-228). -/

/-- JS `s.split('/')` on the character list of `s`: cut at every `/`,
keeping empty pieces (structurally recursive so that concrete instances
evaluate). -/
def splitOnSlashAux : List Char → List Char → List String
  | [], acc => [String.mk acc.reverse]
  | c :: cs, acc =>
      if c = '/' then String.mk acc.reverse :: splitOnSlashAux cs []
      else splitOnSlashAux cs (c :: acc)

/-- JS `s.startsWith(':')`: the first character is `:`. -/
def startsWithColon (s : String) : Bool :=
  match s.data with
  | c :: _ => c = ':'
  | [] => false

/-- `s.split('/').filter(Boolean)`: the `/`-separated segments of a
pathname, with empty segments removed. -/
def splitSegs (s : String) : List String :=
  (splitOnSlashAux s.data []).filter (fun x => x ≠ "")

/-! ## The structural match predicate

`routeParts.every((part, index) => part === pathParts[index] || part.startsWith(':'))`
(`websocket.proxy.ts`, line 198; the identical expression appears at
line 230 inside `findRoute`).  `pathParts[index]` is `undefined` out of
range, and `undefined === part` is `false`; this is modelled with
`List.get?`. -/

/-- One step of JS `Array.prototype.every` with an index cursor:
`every((part, index) => part === pathParts[index] || part.startsWith(':'))`
over the remaining `routeParts`, starting at index `i`. -/
def everyMatchesAux (pathParts : List String) : List String → Nat → Bool
  | [], _ => true
  | part :: rest, i =>
      (decide (pathParts.get? i = some part) || startsWithColon part) &&
        everyMatchesAux pathParts rest (i + 1)

/-- `routeParts.every((part, index) => part === pathParts[index] || part.startsWith(':'))`. -/
def everyMatches (routeParts pathParts : List String) : Bool :=
  everyMatchesAux pathParts routeParts 0

/-- The match decision shared by `matchRouter` and `findRoute`:
segment counts must be equal and `everyMatches` must hold
(`websocket.proxy.ts`, lines 194-199 and 229-230). -/
def routePatternMatches (routePathname inputPathname : String) : Bool :=
  if (splitSegs inputPathname).length ≠ (splitSegs routePathname).length then false
  else everyMatches (splitSegs routePathname) (splitSegs inputPathname)

/-- The matching relation exactly as the spec words it (§4.1): equal
segment counts, and every pattern segment is a literal equal to the
corresponding path segment or begins with `:`. -/
def specSegMatch (routePathname inputPathname : String) : Prop :=
  (splitSegs routePathname).length = (splitSegs inputPathname).length ∧
    ∀ i (h : i < (splitSegs routePathname).length),
      (splitSegs routePathname).get ⟨i, h⟩ = (splitSegs inputPathname).getD i "" ∨
        startsWithColon ((splitSegs routePathname).get ⟨i, h⟩)

instance (r p : String) : Decidable (specSegMatch r p) := by
  unfold specSegMatch
  exact instDecidableAnd

/-! ## URL parsing model

`matchRouter` begins with three `new URL(...)` calls inside a
`try`/`catch` (lines 185-188, 212-215): a parse failure of any argument
jumps to the `catch`, which returns `{ match: false }`.  A parsed URL is
used only through `origin`, `pathname` and `search`; the parse outcome
is therefore modelled as `Option UrlParts`, `none` standing for a string
that fails to parse. -/

/-- The fields of a parsed `URL` that `matchRouter` reads. -/
structure UrlParts where
  origin : String
  pathname : String
  search : String
deriving DecidableEq

/-- The result object of `matchRouter`: `{ match: boolean, output?: string }`.
(`match` is a Lean keyword, so the field is named `isMatch`.) -/
structure MatchResult where
  isMatch : Bool
  output : Option String
deriving DecidableEq

/-! ## Parameter capture

`const params = {}; routeParts.forEach((part, index) => { if
(part.startsWith(':')) params[part] = pathParts[index]! })`
(`websocket.proxy.ts`, lines 201-206).  The JS object is modelled as a
function `String → Option String`; each assignment is a functional
update, so a later assignment to the same key overwrites the earlier
one, exactly like the JS property write. -/

/-- The `forEach` loop building `params`, with an index cursor. -/
def buildParamsAux (pathParts : List String) :
    List String → Nat → (String → Option String) → (String → Option String)
  | [], _, params => params
  | part :: rest, i, params =>
      buildParamsAux pathParts rest (i + 1)
        (if startsWithColon part then
          (fun t => if t = part then some ((pathParts.get? i).getD "") else params t)
        else params)

/-- The finished `params` object. -/
def buildParams (routeParts pathParts : List String) : String → Option String :=
  buildParamsAux pathParts routeParts 0 (fun _ => none)

/-- The value of the last capture named `t` among the remaining
`routeParts` (starting at index `i`), if any: the specification of what
the repeated JS property writes leave in `params[t]`. -/
def lastCaptureVal (pathParts : List String) : List String → Nat → String → Option String
  | [], _, _ => none
  | part :: rest, i, t =>
      match lastCaptureVal pathParts rest (i + 1) t with
      | some v => some v
      | none =>
          if part = t ∧ startsWithColon part then some ((pathParts.get? i).getD "")
          else none

/-- JS `params[part] || part`: the empty string is falsy, and a missing
property is `undefined`, also falsy. -/
def jsOrDefault (v : Option String) (d : String) : String :=
  match v with
  | some s => if s = "" then d else s
  | none => d

/-- `WsProxy.matchRouter` (`websocket.proxy.ts`, lines 180-216): match a
route pattern against a request URL and resolve the target template.
Each argument is the parse outcome of the corresponding `new URL(...)`;
any `none` models the `catch` path. -/
def matchRouter (route input target : Option UrlParts) : MatchResult :=
  match route, input, target with
  | some ru, some iu, some tu =>
      if (splitSegs iu.pathname).length ≠ (splitSegs ru.pathname).length then
        ⟨false, none⟩
      else if everyMatches (splitSegs ru.pathname) (splitSegs iu.pathname) then
        ⟨true, some (tu.origin ++ "/" ++
          String.intercalate "/"
            ((splitSegs tu.pathname).map (fun part =>
              jsOrDefault
                (buildParams (splitSegs ru.pathname) (splitSegs iu.pathname) part)
                part)) ++ iu.search)⟩
      else ⟨false, none⟩
  | _, _, _ => ⟨false, none⟩

/-- `WsProxy.findRoute` (`websocket.proxy.ts`, lines 223-232):
`Array.from(this.routes.keys()).find(route => ...)` over the route table
in insertion order.  The table is the `Map` entries as a list of
`(pattern, target)` pairs; patterns and the request URL are given by
their pathnames. -/
def findRoute (routes : List (String × String)) (inputPathname : String) :
    Option String :=
  (routes.map Prod.fst).find? (fun route => routePatternMatches route inputPathname)

end WsProxy

namespace WsPipeline

/-! ## Messages and contexts

`createMessage`, `MessageContext` and `MessageMetadata` from the proxy
implementation (the `WebsocketProxy` variant that carries the middleware
pipeline). -/

/-- Message direction: `MessageDirection.UPSTREAM` / `DOWNSTREAM`. -/
inductive Dir where
  | upstream
  | downstream
deriving DecidableEq

/-- Tagged message payload: `{type:'text', data:string}` or
`{type:'binary', data:ArrayBuffer}` (binary data as a byte list). -/
inductive Message where
  | text (data : String)
  | binary (data : List Nat)
deriving DecidableEq

/-- `createMessage(data)`: tag a raw payload by its runtime type. -/
def createMessage : String ⊕ List Nat → Message
  | .inl s => .text s
  | .inr b => .binary b

/-- JSON values, for the built-in `auth` middleware (the engine itself
never parses message bodies). -/
inductive Json where
  | null
  | bool (b : Bool)
  | num (n : Int)
  | str (s : String)
  | arr (xs : List Json)
  | obj (fields : List (String × Json))
deriving BEq

/-- Property read `j.k` on a parsed JSON value: defined on objects,
`undefined` (here `none`) otherwise. -/
def jsLookup (j : Json) (k : String) : Option Json :=
  match j with
  | .obj fields => fields.lookup k
  | _ => none

/-- JS truthiness of a JSON value. -/
def jsTruthy : Json → Bool
  | .null => false
  | .bool b => b
  | .num n => decide (n ≠ 0)
  | .str s => decide (s ≠ "")
  | .arr _ => true
  | .obj _ => true

/-- JS truthiness of a possibly-absent value (`undefined` is falsy). -/
def jsTruthyOpt : Option Json → Bool
  | none => false
  | some j => jsTruthy j

/-- `MessageMetadata`: the mutable bag seeded `{}`; the engine's
built-in middlewares only write `authenticated` and `userId`. -/
structure Meta where
  authenticated : Option Bool := none
  userId : Option Json := none

/-- `MessageContext` minus the `drop` capability (which the pipeline
implements with a closure over a local `dropped` flag). -/
structure Ctx where
  sessionId : String
  direction : Dir
  message : Message
  metadata : Meta

/-- What one invocation of a `(context, next)` middleware does.  `thrown`:
the context as mutated so far and whether `drop()` was called, then an
exception; `stop`: return without calling `next()`; `callNext`: mutations
and drop decision before the single `next()` call, and a continuation
describing the code after `await next()` (its result is the further
mutated context, whether `drop()` was called after `next()`, and whether
the post-`next` code throws). -/
inductive MwRes where
  | thrown (c : Ctx) (dropSet : Bool)
  | stop (c : Ctx) (dropSet : Bool)
  | callNext (c : Ctx) (dropSet : Bool) (after : Ctx → Ctx × Bool × Bool)

/-- A middleware: a function of the context it observes. -/
def Mw := Ctx → MwRes

/-- `executeMiddleware` (`processMessage`, pipeline loop): `if (dropped)
return; if (index >= middlewares.length) return; const middleware =
middlewares[index++]; await middleware(context, executeMiddleware)`.
The `Nat` argument counts middlewares that started executing (so chain
completion is observable); `Except` carries a propagating exception
together with the context at the throw site and whether `drop()` had
been called by then. -/
def execChain : List Mw → Bool → Ctx → Nat → Except (Ctx × Bool) (Bool × Ctx × Nat)
  | _, true, ctx, n => .ok (true, ctx, n)
  | [], false, ctx, n => .ok (false, ctx, n)
  | m :: rest, false, ctx, n =>
      match m ctx with
      | .thrown c d => .error (c, d)
      | .stop c d => .ok (d, c, n + 1)
      | .callNext c d after =>
          match execChain rest d c (n + 1) with
          | .error e => .error e
          | .ok (d2, c2, n2) =>
              match after c2 with
              | (c3, dAfter, throwAfter) =>
                  if throwAfter then .error (c3, d2 || dAfter)
                  else .ok (d2 || dAfter, c3, n2)

/-- Outcome of `processMessage` plus the `forwardMessage` call it may
make: which message (if any) was handed to the opposite peer's `send`,
how many `message:dropped` and `middleware:error` events were emitted,
the context carried by the error event, and whether the engine closed
the inbound session (the `!upstream` defensive branch of
`forwardMessage`). -/
structure ProcResult where
  forwarded : Option Message
  droppedEmitted : Nat
  errorEmitted : Nat
  errorCtx : Option Ctx
  closedSession : Bool

/-- `forwardMessage(sessionId, direction, message)`: upstream-bound
messages go to the registered upstream (`upstreams.get(sessionId)`), and
if none is registered the inbound session is closed with code 1011;
downstream-bound messages go to the inbound peer via `server.send`. -/
def forwardMessage (dir : Dir) (upstreamPresent : Bool) (m : Message) : ProcResult :=
  match dir with
  | .upstream =>
      if upstreamPresent then ⟨some m, 0, 0, none, false⟩
      else ⟨none, 0, 0, none, true⟩
  | .downstream => ⟨some m, 0, 0, none, false⟩

/-- Initial context of `processMessage`: metadata seeded `{}`. -/
def initCtx (sid : String) (dir : Dir) (raw : String ⊕ List Nat) : Ctx :=
  ⟨sid, dir, createMessage raw, {}⟩

/-- `processMessage(sessionId, direction, rawMessage)`: build the
context, run the chain from index 0 with `dropped = false`; on normal
return forward iff `!dropped`, else emit `message:dropped`; a propagated
exception is caught and emits `middleware:error` with the context. -/
def processMessage (mws : List Mw) (sid : String) (dir : Dir)
    (raw : String ⊕ List Nat) (upstreamPresent : Bool) : ProcResult :=
  match execChain mws false (initCtx sid dir raw) 0 with
  | .error (c, _) => ⟨none, 0, 1, some c, false⟩
  | .ok (dropped, c, _) =>
      if dropped then ⟨none, 1, 0, none, false⟩
      else forwardMessage dir upstreamPresent c.message

/-- Chain completion: every registered middleware was reached (started
executing) during the run, and the run returned normally. -/
def chainCompleted (mws : List Mw) (sid : String) (dir : Dir)
    (raw : String ⊕ List Nat) : Bool :=
  match execChain mws false (initCtx sid dir raw) 0 with
  | .ok (_, _, n) => decide (n = mws.length)
  | .error _ => false

/-- Whether `drop()` was invoked at any point of the run. -/
def dropInvoked (mws : List Mw) (sid : String) (dir : Dir)
    (raw : String ⊕ List Nat) : Bool :=
  match execChain mws false (initCtx sid dir raw) 0 with
  | .ok (d, _, _) => d
  | .error (_, d) => d

/-- `useUpstream`'s wrapper: run the middleware only on upstream-bound
contexts, otherwise `return next()` unconditionally. -/
def useUpstreamWrap (m : Mw) : Mw := fun ctx =>
  if ctx.direction = .upstream then m ctx
  else .callNext ctx false (fun c => (c, false, false))

end WsPipeline

namespace WsSession

/-! ## Session lifecycle: close propagation and the registry

Net effect of the two close handlers of the proxy.  Inbound close
(`setupServer`, the `.on('close', ...)` handler): `const upstream =
this.upstreams.get(data.sessionId); if (upstream) { upstream.close();
this.upstreams.delete(data.sessionId) }`.  Upstream close
(`createUpstreamConnection`, the `.on('close', ...)` handler):
`this.upstreams.delete(sessionId); this.server.close(sessionId)`.
`upstream.close()` closes the outbound socket and `server.close(sid)`
closes the inbound one; the follow-up close events those two calls
trigger find the registry entry already deleted and the other socket
already closed, so they are no-ops on this state. -/

/-- Proxy state seen by one session: whether its inbound and upstream
sockets are open, and the registry (`upstreams` map) as the list of
registered session ids. -/
structure SessState where
  inboundOpen : Bool
  upstreamOpen : Bool
  registry : List String

/-- Handler for a close of the inbound peer. -/
def onClientClose (sid : String) (s : SessState) : SessState :=
  if s.registry.contains sid then
    ⟨false, false, s.registry.erase sid⟩
  else
    ⟨false, s.upstreamOpen, s.registry⟩

/-- Handler for a close of the upstream link. -/
def onUpstreamClose (sid : String) (s : SessState) : SessState :=
  ⟨false, false, s.registry.erase sid⟩

/-! ## The upstream connection attempt

`createUpstreamConnection(sessionId, href, protocol)`: a `Promise` whose
executor starts a 10s timer that rejects, constructs the `WsClient`
(whose events are `open`/`message`/`close`; its `onerror` callback does
not re-emit), wires `open` to `clearTimeout` + resolve and `close` to
deleting the registry entry and closing the inbound session — and then
unconditionally runs `this.upstreams.set(sessionId, upstream)` before
any event can fire.  The attempt is modelled as a fold over the sequence
of events the connection produces. -/

/-- Events observable during one connection attempt: the socket opens,
the socket closes (covers a failed connect, which surfaces as a close),
or the 10-second timer fires. -/
inductive ConnEvent where
  | open
  | close
  | timeoutFire
deriving DecidableEq

/-- State of one `createUpstreamConnection` promise. -/
structure ConnAttemptState where
  upstreams : List String
  settled : Option Bool
  timeoutCleared : Bool
  inboundClosed : Bool
deriving DecidableEq

/-- One event handler step.  `open`: `clearTimeout` and resolve (a
settled promise stays settled).  `close`: delete the registry entry and
close the inbound session (it does not settle the promise).
`timeoutFire`: reject, unless `clearTimeout` already ran. -/
def connStep (sid : String) (s : ConnAttemptState) : ConnEvent → ConnAttemptState
  | .open =>
      { s with
        settled := if s.settled = none then some true else s.settled
        timeoutCleared := true }
  | .close =>
      { s with upstreams := s.upstreams.erase sid, inboundClosed := true }
  | .timeoutFire =>
      if s.timeoutCleared then s
      else { s with settled := if s.settled = none then some false else s.settled }

/-- Run one connection attempt: register the upstream first (the
executor's last synchronous statement), then process the connection's
events in order.  `settled = some true` means the promise resolved and
`onUpgrade` accepts; `some false` means it rejected and the upgrade is
refused. -/
def runConnAttempt (sid : String) (reg : List String) (events : List ConnEvent) :
    ConnAttemptState :=
  events.foldl (connStep sid) ⟨reg ++ [sid], none, false, false⟩

end WsSession

namespace WsAuth

open WsPipeline

/-! ## The built-in `auth` middleware

`auth(validateToken)` keeps a closure-scoped `authenticated:
Set<string>`.  Per message: an already-authenticated session passes
through (`next()`); otherwise a text message is `JSON.parse`d, and if
`data.type === 'auth' && data.token` and `validateToken(data.token)`
resolves true the session id is added to the set, the metadata gets
`authenticated = true` and `userId = data.userId`, and the message is
dropped; every other message of a not-yet-authenticated session is
dropped.  `JSON.parse` is an external platform function, passed in as
`parse` (a parse failure — the `catch {}` — is `none`). -/

/-- Result of one `auth` middleware invocation: the updated
`authenticated` set, the (possibly mutated) metadata, whether
`context.drop()` was called, and whether `next()` was called. -/
structure AuthStepResult where
  authSet : List String
  metadata : Meta
  dropped : Bool
  calledNext : Bool

/-- The `try { ... } catch {}` block of the middleware, for a
not-yet-authenticated session: parse the text payload, and on
`data.type === 'auth' && data.token` with a valid token, add the session
to the set, mark the metadata and report that the message was handled
(dropped); every failure path falls through unchanged. -/
def authTryBlock (validate : Json → Bool) (parse : String → Option Json)
    (authSet : List String) (sid : String) (msg : Message) (meta : Meta) :
    List String × Meta × Bool :=
  match msg with
  | .text s =>
      match parse s with
      | some d =>
          match jsLookup d "type" with
          | some (.str t) =>
              if t = "auth" then
                if jsTruthyOpt (jsLookup d "token") then
                  if validate ((jsLookup d "token").getD .null) then
                    (authSet ++ [sid],
                      { meta with
                        authenticated := some true
                        userId := jsLookup d "userId" },
                      true)
                  else (authSet, meta, false)
                else (authSet, meta, false)
              else (authSet, meta, false)
          | _ => (authSet, meta, false)
      | none => (authSet, meta, false)
  | .binary _ => (authSet, meta, false)

/-- One invocation of the middleware returned by `auth(validateToken)`. -/
def authMw (validate : Json → Bool) (parse : String → Option Json)
    (authSet : List String) (sid : String) (msg : Message) (meta : Meta) :
    AuthStepResult :=
  if authSet.contains sid then ⟨authSet, meta, false, true⟩
  else
    match authTryBlock validate parse authSet sid msg meta with
    | (as2, m2, true) => ⟨as2, m2, true, false⟩
    | (as2, m2, false) =>
        if as2.contains sid then ⟨as2, m2, false, true⟩
        else ⟨as2, m2, true, false⟩

/-- The `auth` middleware as a pipeline middleware (for a fixed snapshot
of its `authenticated` set): it either calls `next()` once with the
context unchanged, or returns after possibly mutating the metadata and
calling `drop()`. -/
def authAsMw (validate : Json → Bool) (parse : String → Option Json)
    (authSet : List String) : Mw := fun ctx =>
  let r := authMw validate parse authSet ctx.sessionId ctx.message ctx.metadata
  if r.calledNext then .callNext { ctx with metadata := r.metadata } false
    (fun c => (c, false, false))
  else .stop { ctx with metadata := r.metadata } r.dropped

end WsAuth

/-! ## Theorems -/

namespace WsProxy

theorem splitSegs_ne_empty {s x : String} (hx : x ∈ splitSegs s) : x ≠ "" := by
  have := List.of_mem_filter hx
  simpa using this

theorem everyMatchesAux_iff (pp : List String) (l : List String) (i : Nat) :
    everyMatchesAux pp l i = true ↔
      ∀ k (h : k < l.length),
        pp.get? (i + k) = some (l.get ⟨k, h⟩) ∨ startsWithColon (l.get ⟨k, h⟩) := by
  induction l generalizing i with
  | nil =>
      simp [everyMatchesAux]
  | cons part rest ih =>
      simp only [everyMatchesAux, Bool.and_eq_true, Bool.or_eq_true, decide_eq_true_eq]
      rw [ih (i + 1)]
      constructor
      · rintro ⟨h0, hrest⟩ k hk
        cases k with
        | zero => simpa using h0
        | succ k' =>
            have hk' : k' < rest.length := Nat.lt_of_succ_lt_succ hk
            have := hrest k' hk'
            simpa [Nat.add_assoc, Nat.add_comm 1 k'] using this
      · intro h
        refine ⟨by simpa using h 0 (Nat.succ_pos _), ?_⟩
        intro k hk
        have := h (k + 1) (Nat.succ_lt_succ hk)
        simpa [Nat.add_assoc, Nat.add_comm 1 k] using this

theorem routePatternMatches_iff (r p : String) :
    routePatternMatches r p = true ↔ specSegMatch r p := by
  unfold routePatternMatches specSegMatch
  by_cases hlen : (splitSegs p).length = (splitSegs r).length
  · rw [if_neg (by simpa using hlen)]
    rw [everyMatches, everyMatchesAux_iff]
    constructor
    · intro h
      refine ⟨hlen.symm, ?_⟩
      intro i hi
      have hip : i < (splitSegs p).length := hlen ▸ hi
      rcases h i hi with h1 | h1
      · left
        rw [Nat.zero_add, List.get?_eq_getElem?, List.getElem?_eq_getElem hip] at h1
        have hv := Option.some.inj h1
        rw [List.getD_eq_getElem _ _ hip]
        simpa using hv.symm
      · right; exact h1
    · rintro ⟨-, h⟩ k hk
      have hkp : k < (splitSegs p).length := hlen ▸ hk
      rcases h k hk with h1 | h1
      · left
        rw [Nat.zero_add, List.get?_eq_getElem?, List.getElem?_eq_getElem hkp]
        rw [List.getD_eq_getElem _ _ hkp] at h1
        simpa using h1.symm
      · right; exact h1
  · rw [if_pos (by simpa using hlen)]
    constructor
    · intro h; cases h
    · rintro ⟨h, -⟩; exact absurd h.symm hlen

theorem matchRouter_isMatch (ru iu tu : UrlParts) :
    (matchRouter (some ru) (some iu) (some tu)).isMatch =
      routePatternMatches ru.pathname iu.pathname := by
  show (if (splitSegs iu.pathname).length ≠ (splitSegs ru.pathname).length then
      (⟨false, none⟩ : MatchResult)
    else if everyMatches (splitSegs ru.pathname) (splitSegs iu.pathname) then
      ⟨true, some (tu.origin ++ "/" ++
        String.intercalate "/"
          ((splitSegs tu.pathname).map (fun part =>
            jsOrDefault
              (buildParams (splitSegs ru.pathname) (splitSegs iu.pathname) part)
              part)) ++ iu.search)⟩
    else ⟨false, none⟩).isMatch = _
  unfold routePatternMatches
  by_cases h : (splitSegs iu.pathname).length ≠ (splitSegs ru.pathname).length
  · rw [if_pos h, if_pos h]
  · rw [if_neg h, if_neg h]
    by_cases h2 : everyMatches (splitSegs ru.pathname) (splitSegs iu.pathname) = true
    · rw [if_pos h2, h2]
    · rw [if_neg h2]
      simp only [Bool.not_eq_true] at h2
      rw [h2]

end WsProxy

/-- C3: for every route pattern and request path, the matcher — both
`matchRouter`'s decision and the per-entry predicate of `findRoute` —
reports a match if and only if their `/`-split segment counts (ignoring
empty segments) are equal and every pattern segment either equals the
corresponding path segment literally or begins with `:`; and when the
segment counts differ it never matches. -/
theorem claim_C3_match_characterization :
    (∀ ru iu tu : WsProxy.UrlParts,
      ((WsProxy.matchRouter (some ru) (some iu) (some tu)).isMatch = true ↔
        WsProxy.specSegMatch ru.pathname iu.pathname))
    ∧ (∀ r p : String,
      (WsProxy.routePatternMatches r p = true ↔ WsProxy.specSegMatch r p))
    ∧ (∀ ru iu tu : WsProxy.UrlParts,
      (WsProxy.splitSegs ru.pathname).length ≠ (WsProxy.splitSegs iu.pathname).length →
        (WsProxy.matchRouter (some ru) (some iu) (some tu)).isMatch = false) := by
  refine ⟨?_, ?_, ?_⟩
  · intro ru iu tu
    rw [WsProxy.matchRouter_isMatch]
    exact WsProxy.routePatternMatches_iff _ _
  · exact WsProxy.routePatternMatches_iff
  · intro ru iu tu h
    rw [WsProxy.matchRouter_isMatch]
    unfold WsProxy.routePatternMatches
    rw [if_pos (Ne.symm h)]

/-- Witness for C3 at a concrete input: `/a/b` has a different segment
count from `/a`, and the matcher reports no match there. -/
theorem claim_C3_match_characterization_witness :
    (WsProxy.splitSegs "/a/b").length ≠ (WsProxy.splitSegs "/a").length ∧
      (WsProxy.matchRouter (some ⟨"http://localhost", "/a/b", ""⟩)
        (some ⟨"ws://client", "/a", ""⟩)
        (some ⟨"ws://target", "/x", ""⟩)).isMatch = false :=
  ⟨by decide,
    claim_C3_match_characterization.2.2 ⟨"http://localhost", "/a/b", ""⟩
      ⟨"ws://client", "/a", ""⟩ ⟨"ws://target", "/x", ""⟩ (by decide)⟩

/-- C6: route matching is total — for every combination of parse
outcomes, `matchRouter` returns a result, and whenever any of the route
pattern, the request path or the target fails to parse as a URL (the
`try`/`catch` path), that result is a non-match with no output. -/
theorem claim_C6_matching_total_on_parse_failure :
    ∀ route input target : Option WsProxy.UrlParts,
      route = none ∨ input = none ∨ target = none →
        WsProxy.matchRouter route input target = ⟨false, none⟩ := by
  intro route input target h
  rcases route with - | ru
  · rfl
  rcases input with - | iu
  · rfl
  rcases target with - | tu
  · rfl
  rcases h with h | h | h <;> cases h

/-- Witness for C6 at a concrete input: an unparseable request URL
yields a non-match. -/
theorem claim_C6_matching_total_on_parse_failure_witness :
    ((none : Option WsProxy.UrlParts) = none ∨
        (none : Option WsProxy.UrlParts) = none ∨
        (none : Option WsProxy.UrlParts) = none) ∧
      WsProxy.matchRouter (some ⟨"http://localhost", "/ws/:id", ""⟩) none
        (some ⟨"ws://target", "/ws/:id", ""⟩) = ⟨false, none⟩ :=
  ⟨Or.inl rfl,
    claim_C6_matching_total_on_parse_failure
      (some ⟨"http://localhost", "/ws/:id", ""⟩) none
      (some ⟨"ws://target", "/ws/:id", ""⟩) (Or.inr (Or.inl rfl))⟩

theorem findRoute_nil_of_no_match (routes : List (String × String)) (path : String)
    (h : ∀ e ∈ routes, WsProxy.routePatternMatches e.1 path = false) :
    WsProxy.findRoute routes path = none := by
  unfold WsProxy.findRoute
  refine List.find?_eq_none.mpr ?_
  intro x hx
  rcases List.mem_map.mp hx with ⟨e, he, rfl⟩
  simp [h e he]

theorem findRoute_first_match (routes : List (String × String)) (path : String) :
    ∀ (i : Nat) (hi : i < routes.length),
      WsProxy.routePatternMatches (routes.get ⟨i, hi⟩).1 path = true →
      (∀ j (hj : j < i),
        WsProxy.routePatternMatches (routes.get ⟨j, Nat.lt_trans hj hi⟩).1 path = false) →
      WsProxy.findRoute routes path = some (routes.get ⟨i, hi⟩).1 := by
  induction routes with
  | nil =>
      intro i hi
      exact absurd hi (Nat.not_lt_zero i)
  | cons e rest ih =>
      intro i hi hmatch hbefore
      cases i with
      | zero =>
          unfold WsProxy.findRoute
          rw [List.map_cons]
          exact List.find?_cons_of_pos _ (by simpa using hmatch)
      | succ i' =>
          have h0 : WsProxy.routePatternMatches e.1 path = false :=
            hbefore 0 (Nat.succ_pos _)
          have step : WsProxy.findRoute (e :: rest) path = WsProxy.findRoute rest path := by
            unfold WsProxy.findRoute
            rw [List.map_cons]
            exact List.find?_cons_of_neg _ (by simp [h0])
          rw [step]
          exact ih i' (Nat.lt_of_succ_lt_succ hi) hmatch
            (fun j hj => hbefore (j + 1) (Nat.succ_lt_succ hj))

/-- C5: `findRoute` iterates the route table entries in insertion order
and returns the first entry whose pattern structurally matches the
request path; when no entry matches it returns none — in particular,
when several entries could match, the earliest-inserted one wins. -/
theorem claim_C5_findRoute_insertion_order :
    (∀ (routes : List (String × String)) (path : String),
      (∀ e ∈ routes, WsProxy.routePatternMatches e.1 path = false) →
        WsProxy.findRoute routes path = none)
    ∧ (∀ (routes : List (String × String)) (path : String) (i : Nat)
        (hi : i < routes.length),
        WsProxy.routePatternMatches (routes.get ⟨i, hi⟩).1 path = true →
        (∀ j (hj : j < i),
          WsProxy.routePatternMatches (routes.get ⟨j, Nat.lt_trans hj hi⟩).1 path = false) →
        WsProxy.findRoute routes path = some (routes.get ⟨i, hi⟩).1) :=
  ⟨findRoute_nil_of_no_match, findRoute_first_match⟩

/-- Witness for C5 at a concrete table: with entries `/a` then `/:x`
(both inserted, in that order) and request path `/b`, the first entry
does not match, the second does, and `findRoute` returns `/:x`; and on
path `/b/c` nothing matches and `findRoute` returns none. -/
theorem claim_C5_findRoute_insertion_order_witness :
    (WsProxy.routePatternMatches "/:x" "/b" = true ∧
      WsProxy.routePatternMatches "/a" "/b" = false ∧
      WsProxy.findRoute [("/a", "t1"), ("/:x", "t2")] "/b" = some "/:x") ∧
    ((∀ e ∈ [("/a", "t1"), ("/:x", "t2")],
        WsProxy.routePatternMatches e.1 "/b/c" = false) ∧
      WsProxy.findRoute [("/a", "t1"), ("/:x", "t2")] "/b/c" = none) := by
  refine ⟨⟨by decide, by decide, ?_⟩, ⟨by decide, ?_⟩⟩
  · exact claim_C5_findRoute_insertion_order.2 [("/a", "t1"), ("/:x", "t2")] "/b" 1
      (by decide) (by decide)
      (by
        intro j hj
        have hj0 : j = 0 := Nat.lt_one_iff.mp hj
        subst hj0
        exact (by decide : WsProxy.routePatternMatches "/a" "/b" = false))
  · exact claim_C5_findRoute_insertion_order.1 [("/a", "t1"), ("/:x", "t2")] "/b/c"
      (by decide)

namespace WsProxy

theorem buildParamsAux_eq (pp : List String) (l : List String) :
    ∀ (i : Nat) (params : String → Option String) (t : String),
      buildParamsAux pp l i params t =
        match lastCaptureVal pp l i t with
        | some v => some v
        | none => params t := by
  induction l with
  | nil => intro i params t; rfl
  | cons part rest ih =>
      intro i params t
      show buildParamsAux pp rest (i + 1)
          (if startsWithColon part then
            (fun t => if t = part then some ((pp.get? i).getD "") else params t)
          else params) t = _
      rw [ih (i + 1)]
      show _ = (match
          (match lastCaptureVal pp rest (i + 1) t with
          | some v => some v
          | none =>
              if part = t ∧ startsWithColon part then some ((pp.get? i).getD "")
              else none) with
        | some v => some v
        | none => params t)
      cases h : lastCaptureVal pp rest (i + 1) t with
      | some v => simp [h]
      | none =>
          simp only [h]
          by_cases hc : startsWithColon part = true
          · rw [if_pos hc]
            by_cases ht : t = part
            · rw [if_pos ht, if_pos ⟨ht.symm, hc⟩]
            · rw [if_neg ht, if_neg (fun hand => ht hand.1.symm)]
          · rw [if_neg hc, if_neg (fun hand => hc hand.2)]

theorem lastCaptureVal_eq_none (pp : List String) (l : List String) (t : String)
    (h : ∀ j (hj : j < l.length),
      ¬(l.get ⟨j, hj⟩ = t ∧ startsWithColon (l.get ⟨j, hj⟩) = true)) :
    ∀ i, lastCaptureVal pp l i t = none := by
  induction l with
  | nil => intro i; rfl
  | cons part rest ih =>
      intro i
      have hrest : ∀ j (hj : j < rest.length),
          ¬(rest.get ⟨j, hj⟩ = t ∧ startsWithColon (rest.get ⟨j, hj⟩) = true) :=
        fun j hj => h (j + 1) (Nat.succ_lt_succ hj)
      show (match lastCaptureVal pp rest (i + 1) t with
        | some v => some v
        | none =>
            if part = t ∧ startsWithColon part then some ((pp.get? i).getD "")
            else none) = none
      rw [ih hrest (i + 1)]
      exact if_neg (h 0 (Nat.succ_pos _))

theorem lastCaptureVal_eq_some (pp : List String) (l : List String) (t : String) :
    ∀ (i j : Nat) (hj : j < l.length),
      l.get ⟨j, hj⟩ = t → startsWithColon t = true →
      (∀ k (hk : k < l.length), l.get ⟨k, hk⟩ = t → k = j) →
      lastCaptureVal pp l i t = some ((pp.get? (i + j)).getD "") := by
  induction l with
  | nil => intro i j hj; exact absurd hj (Nat.not_lt_zero j)
  | cons part rest ih =>
      intro i j hj hget hcolon huniq
      cases j with
      | zero =>
          have hrestnone : lastCaptureVal pp rest (i + 1) t = none := by
            apply lastCaptureVal_eq_none
            intro k hk hand
            exact absurd (huniq (k + 1) (Nat.succ_lt_succ hk) hand.1)
              (Nat.succ_ne_zero k)
          show (match lastCaptureVal pp rest (i + 1) t with
            | some v => some v
            | none =>
                if part = t ∧ startsWithColon part then some ((pp.get? i).getD "")
                else none) = _
          rw [hrestnone]
          have hpart : part = t := hget
          rw [if_pos ⟨hpart, by rw [hpart]; exact hcolon⟩]
          rw [Nat.add_zero]
      | succ j' =>
          have hj' : j' < rest.length := Nat.lt_of_succ_lt_succ hj
          have hr := ih (i + 1) j' hj' hget hcolon
            (fun k hk hgk =>
              Nat.succ.inj (huniq (k + 1) (Nat.succ_lt_succ hk) hgk))
          show (match lastCaptureVal pp rest (i + 1) t with
            | some v => some v
            | none =>
                if part = t ∧ startsWithColon part then some ((pp.get? i).getD "")
                else none) = _
          rw [hr]
          have harith : i + 1 + j' = i + (j' + 1) := by omega
          rw [harith]

theorem routePatternMatches_true_elim {r p : String}
    (h : routePatternMatches r p = true) :
    (splitSegs p).length = (splitSegs r).length ∧
      everyMatches (splitSegs r) (splitSegs p) = true := by
  unfold routePatternMatches at h
  by_cases hl : (splitSegs p).length ≠ (splitSegs r).length
  · rw [if_pos hl] at h; cases h
  · rw [if_neg hl] at h
    exact ⟨not_ne_iff.mp hl, h⟩

theorem matchRouter_output_eq (ru iu tu : UrlParts)
    (hlen : (splitSegs iu.pathname).length = (splitSegs ru.pathname).length)
    (hev : everyMatches (splitSegs ru.pathname) (splitSegs iu.pathname) = true) :
    matchRouter (some ru) (some iu) (some tu) =
      ⟨true, some (tu.origin ++ "/" ++
        String.intercalate "/"
          ((splitSegs tu.pathname).map (fun part =>
            jsOrDefault
              (buildParams (splitSegs ru.pathname) (splitSegs iu.pathname) part)
              part)) ++ iu.search)⟩ := by
  show (if (splitSegs iu.pathname).length ≠ (splitSegs ru.pathname).length then
      (⟨false, none⟩ : MatchResult)
    else if everyMatches (splitSegs ru.pathname) (splitSegs iu.pathname) then
      ⟨true, some (tu.origin ++ "/" ++
        String.intercalate "/"
          ((splitSegs tu.pathname).map (fun part =>
            jsOrDefault
              (buildParams (splitSegs ru.pathname) (splitSegs iu.pathname) part)
              part)) ++ iu.search)⟩
    else ⟨false, none⟩) = _
  rw [if_neg (not_ne_iff.mpr hlen), if_pos hev]

end WsProxy


/-- C4: when the matcher reports a match (and the pattern's `:`-segments
have pairwise distinct names, so that "the captured parameter value" is
well defined), the resolved output is the target origin, a `/`, the
target-template segments joined by `/` — where each template segment is
replaced by the captured parameter value exactly when it equals a
captured `:name` token and is left unchanged otherwise — followed by the
original path's query string; in particular resolving `/:id` against
path `/42` with target `/target/:id` yields `/target/42` with the query
string preserved. -/
theorem claim_C4_target_resolution :
    (∀ ru iu tu : WsProxy.UrlParts,
      (WsProxy.matchRouter (some ru) (some iu) (some tu)).isMatch = true →
      (∀ j k, j < (WsProxy.splitSegs ru.pathname).length →
        k < (WsProxy.splitSegs ru.pathname).length →
        (WsProxy.splitSegs ru.pathname).getD j "" =
            (WsProxy.splitSegs ru.pathname).getD k "" →
        WsProxy.startsWithColon ((WsProxy.splitSegs ru.pathname).getD j "") = true →
        j = k) →
      ∃ outSegs : List String,
        (WsProxy.matchRouter (some ru) (some iu) (some tu)).output =
          some (tu.origin ++ "/" ++ String.intercalate "/" outSegs ++ iu.search) ∧
        outSegs.length = (WsProxy.splitSegs tu.pathname).length ∧
        (∀ i, i < (WsProxy.splitSegs tu.pathname).length →
          (¬∃ j, j < (WsProxy.splitSegs ru.pathname).length ∧
              (WsProxy.splitSegs ru.pathname).getD j "" =
                  (WsProxy.splitSegs tu.pathname).getD i "" ∧
              WsProxy.startsWithColon ((WsProxy.splitSegs tu.pathname).getD i "") = true) →
          outSegs.getD i "" = (WsProxy.splitSegs tu.pathname).getD i "") ∧
        (∀ i j, i < (WsProxy.splitSegs tu.pathname).length →
          j < (WsProxy.splitSegs ru.pathname).length →
          (WsProxy.splitSegs ru.pathname).getD j "" =
              (WsProxy.splitSegs tu.pathname).getD i "" →
          WsProxy.startsWithColon ((WsProxy.splitSegs tu.pathname).getD i "") = true →
          outSegs.getD i "" = (WsProxy.splitSegs iu.pathname).getD j ""))
    ∧ WsProxy.matchRouter (some ⟨"http://localhost", "/:id", ""⟩)
        (some ⟨"ws://client", "/42", "?a=1"⟩)
        (some ⟨"ws://up", "/target/:id", ""⟩) =
      ⟨true, some "ws://up/target/42?a=1"⟩ := by
  constructor
  · intro ru iu tu hm huniq
    obtain ⟨hlen, hev⟩ :=
      WsProxy.routePatternMatches_true_elim
        ((WsProxy.matchRouter_isMatch ru iu tu).symm.trans hm)
    have hout := WsProxy.matchRouter_output_eq ru iu tu hlen hev
    refine ⟨(WsProxy.splitSegs tu.pathname).map (fun part =>
      WsProxy.jsOrDefault
        (WsProxy.buildParams (WsProxy.splitSegs ru.pathname)
          (WsProxy.splitSegs iu.pathname) part) part), ?_, ?_, ?_, ?_⟩
    · rw [hout]
    · exact List.length_map _ _
    · intro i hi hnc
      have hil : i < ((WsProxy.splitSegs tu.pathname).map (fun part =>
          WsProxy.jsOrDefault
            (WsProxy.buildParams (WsProxy.splitSegs ru.pathname)
              (WsProxy.splitSegs iu.pathname) part) part)).length := by
        simpa using hi
      rw [List.getD_eq_getElem _ _ hil, List.getElem_map,
        List.getD_eq_getElem _ _ hi]
      have hnone : WsProxy.buildParams (WsProxy.splitSegs ru.pathname)
          (WsProxy.splitSegs iu.pathname) ((WsProxy.splitSegs tu.pathname)[i]) =
            none := by
        unfold WsProxy.buildParams
        rw [WsProxy.buildParamsAux_eq]
        rw [WsProxy.lastCaptureVal_eq_none (WsProxy.splitSegs iu.pathname)
          (WsProxy.splitSegs ru.pathname) ((WsProxy.splitSegs tu.pathname)[i])
          ?_ 0]
        intro j hj hand
        have h1 : (WsProxy.splitSegs ru.pathname)[j] =
            (WsProxy.splitSegs tu.pathname)[i] := by simpa using hand.1
        have h2 : WsProxy.startsWithColon ((WsProxy.splitSegs ru.pathname)[j]) =
            true := by simpa using hand.2
        refine hnc ⟨j, hj, ?_, ?_⟩
        · rw [List.getD_eq_getElem _ _ hj, List.getD_eq_getElem _ _ hi]
          exact h1
        · rw [List.getD_eq_getElem _ _ hi, ← h1]
          exact h2
      rw [hnone]
      rfl
    · intro i j hi hj hrj hcol
      have hil : i < ((WsProxy.splitSegs tu.pathname).map (fun part =>
          WsProxy.jsOrDefault
            (WsProxy.buildParams (WsProxy.splitSegs ru.pathname)
              (WsProxy.splitSegs iu.pathname) part) part)).length := by
        simpa using hi
      rw [List.getD_eq_getElem _ _ hil, List.getElem_map]
      rw [List.getD_eq_getElem _ _ hj, List.getD_eq_getElem _ _ hi] at hrj
      rw [List.getD_eq_getElem _ _ hi] at hcol
      have hjp : j < (WsProxy.splitSegs iu.pathname).length := hlen ▸ hj
      have hgetj : (WsProxy.splitSegs ru.pathname).get ⟨j, hj⟩ =
          (WsProxy.splitSegs tu.pathname)[i] := by simpa using hrj
      have hsome := WsProxy.lastCaptureVal_eq_some (WsProxy.splitSegs iu.pathname)
        (WsProxy.splitSegs ru.pathname) ((WsProxy.splitSegs tu.pathname)[i]) 0 j hj
        hgetj hcol
        (fun k hk hgk => by
          have hgk' : (WsProxy.splitSegs ru.pathname)[k] =
              (WsProxy.splitSegs tu.pathname)[i] := by simpa using hgk
          refine huniq k j hk hj ?_ ?_
          · rw [List.getD_eq_getElem _ _ hk, List.getD_eq_getElem _ _ hj]
            rw [hgk', hrj]
          · rw [List.getD_eq_getElem _ _ hk, hgk']
            exact hcol)
      have hval : (WsProxy.splitSegs iu.pathname).get? (0 + j) =
          some ((WsProxy.splitSegs iu.pathname)[j]) := by
        rw [Nat.zero_add, List.get?_eq_getElem?, List.getElem?_eq_getElem hjp]
      have hbp : WsProxy.buildParams (WsProxy.splitSegs ru.pathname)
          (WsProxy.splitSegs iu.pathname) ((WsProxy.splitSegs tu.pathname)[i]) =
            some ((WsProxy.splitSegs iu.pathname)[j]) := by
        unfold WsProxy.buildParams
        rw [WsProxy.buildParamsAux_eq, hsome, hval]
        rfl
      rw [hbp]
      have hne : (WsProxy.splitSegs iu.pathname)[j] ≠ "" :=
        WsProxy.splitSegs_ne_empty (List.getElem_mem _)
      show WsProxy.jsOrDefault (some ((WsProxy.splitSegs iu.pathname)[j])) _ =
        (WsProxy.splitSegs iu.pathname).getD j ""
      rw [List.getD_eq_getElem _ _ hjp]
      simp [WsProxy.jsOrDefault, hne]
  · decide

/-- Witness for C4 at the concrete input of the claim: the pattern
`/:id` matched against `/42` with target `/target/:id` has distinct
parameter names, the match succeeds, and the resolved output has the
stated shape. -/
theorem claim_C4_target_resolution_witness :
    (WsProxy.matchRouter (some ⟨"http://localhost", "/:id", ""⟩)
        (some ⟨"ws://client", "/42", "?a=1"⟩)
        (some ⟨"ws://up", "/target/:id", ""⟩)).isMatch = true ∧
    ∃ outSegs : List String,
      (WsProxy.matchRouter (some ⟨"http://localhost", "/:id", ""⟩)
          (some ⟨"ws://client", "/42", "?a=1"⟩)
          (some ⟨"ws://up", "/target/:id", ""⟩)).output =
        some ("ws://up" ++ "/" ++ String.intercalate "/" outSegs ++ "?a=1") ∧
      outSegs.length = (WsProxy.splitSegs "/target/:id").length := by
  refine ⟨by decide, ?_⟩
  obtain ⟨outSegs, h1, h2, -, -⟩ :=
    claim_C4_target_resolution.1 ⟨"http://localhost", "/:id", ""⟩
      ⟨"ws://client", "/42", "?a=1"⟩ ⟨"ws://up", "/target/:id", ""⟩
      (by decide)
      (by
        intro j k hj hk h1 h2
        have hl : (WsProxy.splitSegs
            (⟨"http://localhost", "/:id", ""⟩ : WsProxy.UrlParts).pathname).length = 1 := by
          decide
        omega)
  exact ⟨outSegs, h1, h2⟩

namespace WsPipeline

theorem execChain_dropped (mws : List Mw) (ctx : Ctx) (n : Nat) :
    execChain mws true ctx n = Except.ok (true, ctx, n) := by
  cases mws <;> rfl

end WsPipeline

/-- C1 counterexample: with two middlewares whose first returns without
calling `next()` and without calling `drop()`, the chain does not run to
completion (only one of the two middlewares is reached), yet
`processMessage` still forwards the message — refuting "a chain that
ends because a middleware omitted calling next() without calling drop()
must not forward the message" and the only-if direction of the claimed
equivalence. -/
theorem claim_C1_counterexample :
    (WsPipeline.processMessage
        [fun c => WsPipeline.MwRes.stop c false,
         fun c => WsPipeline.MwRes.stop c false]
        "s" WsPipeline.Dir.upstream (Sum.inl "hi") true).forwarded =
      some (WsPipeline.Message.text "hi") ∧
    WsPipeline.chainCompleted
        [fun c => WsPipeline.MwRes.stop c false,
         fun c => WsPipeline.MwRes.stop c false]
        "s" WsPipeline.Dir.upstream (Sum.inl "hi") = false ∧
    WsPipeline.dropInvoked
        [fun c => WsPipeline.MwRes.stop c false,
         fun c => WsPipeline.MwRes.stop c false]
        "s" WsPipeline.Dir.upstream (Sum.inl "hi") = false :=
  ⟨rfl, rfl, rfl⟩

/-- C1 (amended): provided the opposite peer is available (always so for
downstream-bound messages; for upstream-bound ones when an upstream is
registered), forwarding occurs if and only if the pipeline run raises no
exception and `drop()` was never called — chain completion is not
required. -/
theorem claim_C1_forward_iff_no_throw_no_drop :
    ∀ (mws : List WsPipeline.Mw) (sid : String) (dir : WsPipeline.Dir)
      (raw : String ⊕ List Nat) (pres : Bool),
      (dir = WsPipeline.Dir.downstream ∨ pres = true) →
      ((WsPipeline.processMessage mws sid dir raw pres).forwarded.isSome = true ↔
        (WsPipeline.dropInvoked mws sid dir raw = false ∧
          ∃ x, WsPipeline.execChain mws false
            (WsPipeline.initCtx sid dir raw) 0 = Except.ok x)) := by
  intro mws sid dir raw pres hpres
  unfold WsPipeline.processMessage WsPipeline.dropInvoked
  cases h : WsPipeline.execChain mws false (WsPipeline.initCtx sid dir raw) 0 with
  | error e => simp [h]
  | ok v =>
      obtain ⟨d, c, n⟩ := v
      cases d with
      | true => simp [h]
      | false =>
          simp only [h, if_neg Bool.false_ne_true]
          cases dir with
          | downstream => simp [WsPipeline.forwardMessage]
          | upstream =>
              have hp : pres = true := by
                rcases hpres with h1 | h1
                · cases h1
                · exact h1
              subst hp
              simp [WsPipeline.forwardMessage]

/-- Witness for C1 at a concrete input: an empty chain on a
downstream-bound message forwards, and both sides of the equivalence
hold. -/
theorem claim_C1_forward_iff_no_throw_no_drop_witness :
    (WsPipeline.Dir.downstream = WsPipeline.Dir.downstream ∨ (false : Bool) = true) ∧
    ((WsPipeline.processMessage [] "s" WsPipeline.Dir.downstream
        (Sum.inl "m") false).forwarded.isSome = true ↔
      (WsPipeline.dropInvoked [] "s" WsPipeline.Dir.downstream (Sum.inl "m") = false ∧
        ∃ x, WsPipeline.execChain [] false
          (WsPipeline.initCtx "s" WsPipeline.Dir.downstream (Sum.inl "m")) 0 =
            Except.ok x)) :=
  ⟨Or.inl rfl,
    claim_C1_forward_iff_no_throw_no_drop [] "s" WsPipeline.Dir.downstream
      (Sum.inl "m") false (Or.inl rfl)⟩

/-- C2 counterexample: a middleware that calls `drop()` and then throws.
`drop()` was invoked for the message, but the run ends in the `catch`
block: `middleware:error` is emitted and `message:dropped` is emitted
zero times, not exactly once. -/
theorem claim_C2_counterexample :
    WsPipeline.dropInvoked [fun c => WsPipeline.MwRes.thrown c true] "s"
        WsPipeline.Dir.upstream (Sum.inl "x") = true ∧
    (WsPipeline.processMessage [fun c => WsPipeline.MwRes.thrown c true] "s"
        WsPipeline.Dir.upstream (Sum.inl "x") true).droppedEmitted = 0 ∧
    (WsPipeline.processMessage [fun c => WsPipeline.MwRes.thrown c true] "s"
        WsPipeline.Dir.upstream (Sum.inl "x") true).errorEmitted = 1 :=
  ⟨rfl, rfl, rfl⟩

/-- C2 (amended): once `drop()` has been invoked, no later middleware in
the chain runs (a chain entered with the dropped flag set returns at
once, reaching no middleware and touching nothing) and the message is
never forwarded to either peer; and when the run returns normally with
the message dropped, the `message:dropped` event is emitted exactly once
and no error event fires — if a middleware throws after the drop,
`middleware:error` is emitted instead and `message:dropped` is not. -/
theorem claim_C2_drop_short_circuit :
    (∀ (mws : List WsPipeline.Mw) (ctx : WsPipeline.Ctx) (n : Nat),
      WsPipeline.execChain mws true ctx n = Except.ok (true, ctx, n))
    ∧ (∀ (mws : List WsPipeline.Mw) (sid : String) (dir : WsPipeline.Dir)
        (raw : String ⊕ List Nat) (pres : Bool),
        WsPipeline.dropInvoked mws sid dir raw = true →
          (WsPipeline.processMessage mws sid dir raw pres).forwarded = none)
    ∧ (∀ (mws : List WsPipeline.Mw) (sid : String) (dir : WsPipeline.Dir)
        (raw : String ⊕ List Nat) (pres : Bool) (c : WsPipeline.Ctx) (n : Nat),
        WsPipeline.execChain mws false (WsPipeline.initCtx sid dir raw) 0 =
            Except.ok (true, c, n) →
          WsPipeline.processMessage mws sid dir raw pres =
            ⟨none, 1, 0, none, false⟩) := by
  refine ⟨WsPipeline.execChain_dropped, ?_, ?_⟩
  · intro mws sid dir raw pres hdrop
    unfold WsPipeline.dropInvoked at hdrop
    unfold WsPipeline.processMessage
    cases h : WsPipeline.execChain mws false (WsPipeline.initCtx sid dir raw) 0 with
    | error e => simp [h]
    | ok v =>
        obtain ⟨d, c, n⟩ := v
        rw [h] at hdrop
        simp only [h]
        rw [if_pos hdrop]
  · intro mws sid dir raw pres c n h
    unfold WsPipeline.processMessage
    rw [h]
    rfl

/-- Witness for C2 at a concrete input: a single middleware that calls
`drop()` and returns; the run ends dropped, nothing is forwarded, and
`message:dropped` fires exactly once. -/
theorem claim_C2_drop_short_circuit_witness :
    WsPipeline.dropInvoked [fun c => WsPipeline.MwRes.stop c true] "s"
        WsPipeline.Dir.upstream (Sum.inl "x") = true ∧
    WsPipeline.execChain [fun c => WsPipeline.MwRes.stop c true] false
        (WsPipeline.initCtx "s" WsPipeline.Dir.upstream (Sum.inl "x")) 0 =
      Except.ok (true, WsPipeline.initCtx "s" WsPipeline.Dir.upstream (Sum.inl "x"), 1) ∧
    (WsPipeline.processMessage [fun c => WsPipeline.MwRes.stop c true] "s"
        WsPipeline.Dir.upstream (Sum.inl "x") true).forwarded = none ∧
    WsPipeline.processMessage [fun c => WsPipeline.MwRes.stop c true] "s"
        WsPipeline.Dir.upstream (Sum.inl "x") true = ⟨none, 1, 0, none, false⟩ :=
  ⟨rfl, rfl,
    claim_C2_drop_short_circuit.2.1 [fun c => WsPipeline.MwRes.stop c true] "s"
      WsPipeline.Dir.upstream (Sum.inl "x") true rfl,
    claim_C2_drop_short_circuit.2.2 [fun c => WsPipeline.MwRes.stop c true] "s"
      WsPipeline.Dir.upstream (Sum.inl "x") true
      (WsPipeline.initCtx "s" WsPipeline.Dir.upstream (Sum.inl "x")) 1 rfl⟩

/-- C7: a middleware that throws aborts the pipeline immediately — the
chain result is the propagated exception no matter what middlewares
follow the throwing one — and `processMessage` then forwards nothing,
emits no `message:dropped`, emits `middleware:error` exactly once
carrying the offending context, and does not close the session. -/
theorem claim_C7_middleware_error_aborts :
    (∀ (m : WsPipeline.Mw) (rest : List WsPipeline.Mw) (ctx : WsPipeline.Ctx)
        (n : Nat) (c : WsPipeline.Ctx) (d : Bool),
      m ctx = WsPipeline.MwRes.thrown c d →
        WsPipeline.execChain (m :: rest) false ctx n = Except.error (c, d))
    ∧ (∀ (mws : List WsPipeline.Mw) (sid : String) (dir : WsPipeline.Dir)
        (raw : String ⊕ List Nat) (pres : Bool) (c : WsPipeline.Ctx) (d : Bool),
        WsPipeline.execChain mws false (WsPipeline.initCtx sid dir raw) 0 =
            Except.error (c, d) →
          WsPipeline.processMessage mws sid dir raw pres =
            ⟨none, 0, 1, some c, false⟩) := by
  constructor
  · intro m rest ctx n c d h
    simp only [WsPipeline.execChain, h]
  · intro mws sid dir raw pres c d h
    unfold WsPipeline.processMessage
    rw [h]

/-- Witness for C7 at a concrete input: a throwing middleware followed
by another middleware; the chain errors at once and `processMessage`
reports exactly one `middleware:error`, no forward, no close. -/
theorem claim_C7_middleware_error_aborts_witness :
    ((fun c => WsPipeline.MwRes.thrown c false) (WsPipeline.initCtx "s"
        WsPipeline.Dir.upstream (Sum.inl "x")) =
      WsPipeline.MwRes.thrown (WsPipeline.initCtx "s"
        WsPipeline.Dir.upstream (Sum.inl "x")) false) ∧
    WsPipeline.execChain
        [fun c => WsPipeline.MwRes.thrown c false,
         fun c => WsPipeline.MwRes.stop c false] false
        (WsPipeline.initCtx "s" WsPipeline.Dir.upstream (Sum.inl "x")) 0 =
      Except.error (WsPipeline.initCtx "s" WsPipeline.Dir.upstream (Sum.inl "x"),
        false) ∧
    WsPipeline.processMessage
        [fun c => WsPipeline.MwRes.thrown c false,
         fun c => WsPipeline.MwRes.stop c false] "s"
        WsPipeline.Dir.upstream (Sum.inl "x") true =
      ⟨none, 0, 1,
        some (WsPipeline.initCtx "s" WsPipeline.Dir.upstream (Sum.inl "x")),
        false⟩ :=
  ⟨rfl,
    claim_C7_middleware_error_aborts.1 (fun c => WsPipeline.MwRes.thrown c false)
      [fun c => WsPipeline.MwRes.stop c false]
      (WsPipeline.initCtx "s" WsPipeline.Dir.upstream (Sum.inl "x")) 0
      (WsPipeline.initCtx "s" WsPipeline.Dir.upstream (Sum.inl "x")) false rfl,
    claim_C7_middleware_error_aborts.2
      [fun c => WsPipeline.MwRes.thrown c false,
       fun c => WsPipeline.MwRes.stop c false] "s"
      WsPipeline.Dir.upstream (Sum.inl "x") true
      (WsPipeline.initCtx "s" WsPipeline.Dir.upstream (Sum.inl "x")) false rfl⟩

/-- C8 (evaluating the code at the failing input): an upstream
connection attempt whose socket never opens and never closes within the
10-second window — the timer fires as the only event.  The promise
rejects (`settled = some false`), so the upgrade is refused and no
session is created; but the `sessionId → upstream` registry entry
written by the executor before connecting is still present: the registry
is NOT unchanged by the failed attempt, contradicting the claim. -/
theorem claim_C8_timeout_keeps_registry_entry :
    WsSession.runConnAttempt "s1" [] [WsSession.ConnEvent.timeoutFire] =
      ⟨["s1"], some false, false, false⟩ ∧
    ("s1" ∈ (WsSession.runConnAttempt "s1" []
        [WsSession.ConnEvent.timeoutFire]).upstreams) :=
  ⟨rfl, by decide⟩

/-- C9: for a session in the ACTIVE state (both sides open, session id
registered, registry keys distinct as for JS `Map` keys), a close of
either side closes the other side and removes the session's registry
entry, while every other session's registry entry is untouched. -/
theorem claim_C9_close_propagation :
    ∀ (s : WsSession.SessState) (sid : String),
      s.inboundOpen = true → s.upstreamOpen = true →
      sid ∈ s.registry → s.registry.Nodup →
      ((WsSession.onClientClose sid s).inboundOpen = false ∧
        (WsSession.onClientClose sid s).upstreamOpen = false ∧
        sid ∉ (WsSession.onClientClose sid s).registry) ∧
      ((WsSession.onUpstreamClose sid s).inboundOpen = false ∧
        (WsSession.onUpstreamClose sid s).upstreamOpen = false ∧
        sid ∉ (WsSession.onUpstreamClose sid s).registry) ∧
      (∀ t, t ≠ sid →
        ((t ∈ (WsSession.onClientClose sid s).registry ↔ t ∈ s.registry) ∧
          (t ∈ (WsSession.onUpstreamClose sid s).registry ↔ t ∈ s.registry))) := by
  intro s sid hin hup hmem hnodup
  have hcont : s.registry.contains sid = true := by simpa using hmem
  have hclient : WsSession.onClientClose sid s =
      ⟨false, false, s.registry.erase sid⟩ := by
    unfold WsSession.onClientClose
    rw [if_pos hcont]
  refine ⟨?_, ?_, ?_⟩
  · rw [hclient]
    exact ⟨rfl, rfl, hnodup.not_mem_erase⟩
  · exact ⟨rfl, rfl, hnodup.not_mem_erase⟩
  · intro t ht
    constructor
    · rw [hclient]
      exact List.mem_erase_of_ne ht
    · exact List.mem_erase_of_ne ht

/-- Witness for C9 at a concrete ACTIVE session: sessions `a`, `s1`,
`b` registered, both sides of `s1` open; either close removes exactly
`s1`. -/
theorem claim_C9_close_propagation_witness :
    ((⟨true, true, ["a", "s1", "b"]⟩ : WsSession.SessState).inboundOpen = true ∧
      (⟨true, true, ["a", "s1", "b"]⟩ : WsSession.SessState).upstreamOpen = true ∧
      "s1" ∈ (⟨true, true, ["a", "s1", "b"]⟩ : WsSession.SessState).registry ∧
      (["a", "s1", "b"] : List String).Nodup) ∧
    ((WsSession.onClientClose "s1" ⟨true, true, ["a", "s1", "b"]⟩).upstreamOpen = false ∧
      "s1" ∉ (WsSession.onClientClose "s1" ⟨true, true, ["a", "s1", "b"]⟩).registry ∧
      (WsSession.onUpstreamClose "s1" ⟨true, true, ["a", "s1", "b"]⟩).inboundOpen = false ∧
      "s1" ∉ (WsSession.onUpstreamClose "s1" ⟨true, true, ["a", "s1", "b"]⟩).registry ∧
      ("a" ∈ (WsSession.onClientClose "s1" ⟨true, true, ["a", "s1", "b"]⟩).registry ↔
        "a" ∈ (["a", "s1", "b"] : List String))) := by
  refine ⟨⟨rfl, rfl, by decide, by decide⟩, ?_⟩
  obtain ⟨⟨-, h2, h3⟩, ⟨h4, -, h6⟩, h7⟩ :=
    claim_C9_close_propagation ⟨true, true, ["a", "s1", "b"]⟩ "s1" rfl rfl
      (by decide) (by decide)
  exact ⟨h2, h3, h4, h6, (h7 "a" (by decide)).1⟩

namespace WsAuth

theorem authTryBlock_cases (validate : WsPipeline.Json → Bool)
    (parse : String → Option WsPipeline.Json) (authSet : List String)
    (sid : String) (msg : WsPipeline.Message) (meta : WsPipeline.Meta) :
    authTryBlock validate parse authSet sid msg meta = (authSet, meta, false) ∨
      (authTryBlock validate parse authSet sid msg meta).2.2 = true := by
  cases msg with
  | binary b => exact Or.inl rfl
  | text s =>
      unfold authTryBlock
      dsimp only
      cases hps : parse s with
      | none => exact Or.inl rfl
      | some d =>
          dsimp only
          cases hty : WsPipeline.jsLookup d "type" with
          | none => exact Or.inl rfl
          | some j =>
              cases j with
              | null => exact Or.inl rfl
              | bool b => exact Or.inl rfl
              | num n => exact Or.inl rfl
              | arr xs => exact Or.inl rfl
              | obj fs => exact Or.inl rfl
              | str t =>
                  dsimp only
                  by_cases ht : t = "auth"
                  · rw [if_pos ht]
                    by_cases htok : WsPipeline.jsTruthyOpt
                        (WsPipeline.jsLookup d "token") = true
                    · rw [if_pos htok]
                      by_cases hval : validate
                          ((WsPipeline.jsLookup d "token").getD .null) = true
                      · rw [if_pos hval]
                        exact Or.inr rfl
                      · rw [if_neg hval]
                        exact Or.inl rfl
                    · rw [if_neg htok]
                      exact Or.inl rfl
                  · rw [if_neg ht]
                    exact Or.inl rfl

theorem authMw_unauth_result (validate : WsPipeline.Json → Bool)
    (parse : String → Option WsPipeline.Json) (authSet : List String)
    (sid : String) (msg : WsPipeline.Message) (meta : WsPipeline.Meta)
    (hc : authSet.contains sid = false) :
    ∃ as2 m2, authMw validate parse authSet sid msg meta = ⟨as2, m2, true, false⟩ := by
  unfold authMw
  rw [if_neg (by rw [hc]; exact Bool.false_ne_true)]
  rcases authTryBlock_cases validate parse authSet sid msg meta with h | h
  · rw [h]
    dsimp only
    rw [if_neg (by rw [hc]; exact Bool.false_ne_true)]
    exact ⟨authSet, meta, rfl⟩
  · cases hres : authTryBlock validate parse authSet sid msg meta with
    | mk as2 rest =>
        obtain ⟨m2, flag⟩ := rest
        rw [hres] at h
        subst h
        exact ⟨as2, m2, rfl⟩

end WsAuth

namespace WsPipeline

theorem execChain_singleton_stop (m : Mw) (ctx c : Ctx) (d : Bool) (n : Nat)
    (h : m ctx = MwRes.stop c d) :
    execChain [m] false ctx n = Except.ok (d, c, n + 1) := by
  simp only [execChain, h]

end WsPipeline

namespace WsAuth

theorem useUpstreamWrap_authAsMw_eval (validate : WsPipeline.Json → Bool)
    (parse : String → Option WsPipeline.Json) (authSet : List String)
    (sid : String) (raw : String ⊕ List Nat) (as2 : List String)
    (m2 : WsPipeline.Meta)
    (hR : authMw validate parse authSet sid (WsPipeline.createMessage raw) {} =
      ⟨as2, m2, true, false⟩) :
    WsPipeline.useUpstreamWrap (authAsMw validate parse authSet)
        (WsPipeline.initCtx sid WsPipeline.Dir.upstream raw) =
      WsPipeline.MwRes.stop
        ⟨sid, WsPipeline.Dir.upstream, WsPipeline.createMessage raw, m2⟩ true := by
  unfold WsPipeline.useUpstreamWrap
  rw [if_pos (show (WsPipeline.initCtx sid WsPipeline.Dir.upstream raw).direction =
    WsPipeline.Dir.upstream from rfl)]
  unfold authAsMw
  have hR' : authMw validate parse authSet
      (WsPipeline.initCtx sid WsPipeline.Dir.upstream raw).sessionId
      (WsPipeline.initCtx sid WsPipeline.Dir.upstream raw).message
      (WsPipeline.initCtx sid WsPipeline.Dir.upstream raw).metadata =
    ⟨as2, m2, true, false⟩ := hR
  rw [hR']
  rfl

end WsAuth

/-- C10: for a not-yet-authenticated session, the `auth` built-in
middleware (a) on a text message that parses as JSON with `type` equal
to `'auth'`, a truthy `token` accepted by the validator: adds the
session to the authenticated set, records `authenticated`/`userId` in
the context metadata, and calls `drop()` without calling `next()`;
(b) on every message calls `drop()` and never `next()` (in particular
every non-auth message of an unauthenticated session is dropped, and the
successful auth message itself is dropped too); and (c) composed into
the pipeline as the only (upstream-filtered) middleware, an
upstream-bound message from such a session is never forwarded and is
reported dropped. -/
theorem claim_C10_auth_middleware :
    (∀ (validate : WsPipeline.Json → Bool)
        (parse : String → Option WsPipeline.Json) (authSet : List String)
        (sid : String) (meta : WsPipeline.Meta) (s : String) (d : WsPipeline.Json),
      authSet.contains sid = false →
      parse s = some d →
      WsPipeline.jsLookup d "type" = some (WsPipeline.Json.str "auth") →
      WsPipeline.jsTruthyOpt (WsPipeline.jsLookup d "token") = true →
      validate ((WsPipeline.jsLookup d "token").getD WsPipeline.Json.null) = true →
      WsAuth.authMw validate parse authSet sid (WsPipeline.Message.text s) meta =
        ⟨authSet ++ [sid],
          { meta with
            authenticated := some true
            userId := WsPipeline.jsLookup d "userId" }, true, false⟩)
    ∧ (∀ (validate : WsPipeline.Json → Bool)
        (parse : String → Option WsPipeline.Json) (authSet : List String)
        (sid : String) (msg : WsPipeline.Message) (meta : WsPipeline.Meta),
      authSet.contains sid = false →
      (WsAuth.authMw validate parse authSet sid msg meta).dropped = true ∧
        (WsAuth.authMw validate parse authSet sid msg meta).calledNext = false)
    ∧ (∀ (validate : WsPipeline.Json → Bool)
        (parse : String → Option WsPipeline.Json) (authSet : List String)
        (sid : String) (raw : String ⊕ List Nat),
      authSet.contains sid = false →
      (WsPipeline.processMessage
          [WsPipeline.useUpstreamWrap (WsAuth.authAsMw validate parse authSet)]
          sid WsPipeline.Dir.upstream raw true).forwarded = none ∧
        (WsPipeline.processMessage
          [WsPipeline.useUpstreamWrap (WsAuth.authAsMw validate parse authSet)]
          sid WsPipeline.Dir.upstream raw true).droppedEmitted = 1) := by
  refine ⟨?_, ?_, ?_⟩
  · intro validate parse authSet sid meta s d hc hparse htype htok hval
    unfold WsAuth.authMw
    rw [if_neg (by rw [hc]; exact Bool.false_ne_true)]
    have htb : WsAuth.authTryBlock validate parse authSet sid
        (WsPipeline.Message.text s) meta =
      (authSet ++ [sid],
        { meta with
          authenticated := some true
          userId := WsPipeline.jsLookup d "userId" }, true) := by
      unfold WsAuth.authTryBlock
      dsimp only
      rw [hparse]
      dsimp only
      rw [htype]
      dsimp only
      rw [if_pos rfl, if_pos htok, if_pos hval]
    rw [htb]
  · intro validate parse authSet sid msg meta hc
    obtain ⟨as2, m2, hR⟩ :=
      WsAuth.authMw_unauth_result validate parse authSet sid msg meta hc
    rw [hR]
    exact ⟨rfl, rfl⟩
  · intro validate parse authSet sid raw hc
    obtain ⟨as2, m2, hR⟩ :=
      WsAuth.authMw_unauth_result validate parse authSet sid
        (WsPipeline.createMessage raw) {} hc
    have hw := WsAuth.useUpstreamWrap_authAsMw_eval validate parse authSet sid raw
      as2 m2 hR
    have hs := WsPipeline.execChain_singleton_stop _ _ _ _ 0 hw
    unfold WsPipeline.processMessage
    rw [hs]
    exact ⟨rfl, rfl⟩

/-- Witness for C10 at a concrete input: a fresh session sends
`{"type":"auth","token":"tok","userId":"u1"}` (as its parse result);
the validator accepts `"tok"`; the middleware authenticates, records
metadata and drops, and the pipeline forwards nothing. -/
theorem claim_C10_auth_middleware_witness :
    (([] : List String).contains "s" = false ∧
      (fun s => if s = "m" then
          some (WsPipeline.Json.obj
            [("type", WsPipeline.Json.str "auth"),
             ("token", WsPipeline.Json.str "tok"),
             ("userId", WsPipeline.Json.str "u1")])
        else none) "m" =
        some (WsPipeline.Json.obj
          [("type", WsPipeline.Json.str "auth"),
           ("token", WsPipeline.Json.str "tok"),
           ("userId", WsPipeline.Json.str "u1")])) ∧
    WsAuth.authMw
        (fun j => match j with
          | WsPipeline.Json.str s => decide (s = "tok")
          | _ => false)
        (fun s => if s = "m" then
          some (WsPipeline.Json.obj
            [("type", WsPipeline.Json.str "auth"),
             ("token", WsPipeline.Json.str "tok"),
             ("userId", WsPipeline.Json.str "u1")])
        else none)
        [] "s" (WsPipeline.Message.text "m") {} =
      ⟨[] ++ ["s"],
        { authenticated := some true, userId := some (WsPipeline.Json.str "u1") },
        true, false⟩ ∧
    (WsPipeline.processMessage
        [WsPipeline.useUpstreamWrap (WsAuth.authAsMw
          (fun j => match j with
            | WsPipeline.Json.str s => decide (s = "tok")
            | _ => false)
          (fun s => if s = "m" then
            some (WsPipeline.Json.obj
              [("type", WsPipeline.Json.str "auth"),
               ("token", WsPipeline.Json.str "tok"),
               ("userId", WsPipeline.Json.str "u1")])
          else none)
          [])]
        "s" WsPipeline.Dir.upstream (Sum.inl "m") true).forwarded = none := by
  refine ⟨⟨rfl, rfl⟩, ?_, ?_⟩
  · have h := claim_C10_auth_middleware.1
      (fun j => match j with
        | WsPipeline.Json.str s => decide (s = "tok")
        | _ => false)
      (fun s => if s = "m" then
        some (WsPipeline.Json.obj
          [("type", WsPipeline.Json.str "auth"),
           ("token", WsPipeline.Json.str "tok"),
           ("userId", WsPipeline.Json.str "u1")])
      else none)
      [] "s" {} "m"
      (WsPipeline.Json.obj
        [("type", WsPipeline.Json.str "auth"),
         ("token", WsPipeline.Json.str "tok"),
         ("userId", WsPipeline.Json.str "u1")])
      rfl rfl rfl rfl rfl
    exact h
  · exact (claim_C10_auth_middleware.2.2
      (fun j => match j with
        | WsPipeline.Json.str s => decide (s = "tok")
        | _ => false)
      (fun s => if s = "m" then
        some (WsPipeline.Json.obj
          [("type", WsPipeline.Json.str "auth"),
           ("token", WsPipeline.Json.str "tok"),
           ("userId", WsPipeline.Json.str "u1")])
      else none)
      [] "s" (Sum.inl "m") rfl).1
